import Mathlib

/-!
Verification of the selector-builder and JSON-helper module
(`src/05-objects-tasks.js` of `core-js-101`) against its specification.

The JavaScript class `SelectorBuilderClass` is embedded shallowly:
mutation becomes explicit state passing, and a method that may `throw`
returns the (already mutated) state together with an optional error,
matching the "validate after insert" behaviour of the source.
-/

namespace CoreJs101

/-- A selector part: the object `{ type, value }` that the JS methods push
onto `this.selectors`; `value` is the fully rendered fragment. -/
structure SelectorPart where
  type : String
  value : String
deriving DecidableEq, Repr

/-- The two error messages thrown by `SelectorBuilderClass`:
`duplicatePart` is the "should not occur more then one time" error,
`badOrder` is the "should be arranged in the following order" error. -/
inductive SelectorError where
  | duplicatePart
  | badOrder
deriving DecidableEq, Repr

/-- The mutable state of a `SelectorBuilderClass` instance, as set up by the
constructor: `selectors`, `combineSelectors` (whose entries come from
`stringify()`, which can return `null`, hence `Option String`), and the three
singleton flags.  The constant `this.order` array is the definition `order`
below. -/
structure SelectorBuilderClass where
  selectors : List SelectorPart := []
  combineSelectors : List (Option String) := []
  flagElement : Bool := false
  flagId : Bool := false
  flagPseudoElement : Bool := false
deriving DecidableEq, Repr

/-- The fixed category enumeration `this.order`. -/
def order : List String :=
  ["element", "id", "class", "attribute", "pseudoClass", "pseudoElement"]

/-- Position of a category name in the fixed enumeration (used to state the
ordering claims). -/
def orderIdx (t : String) : Nat := order.indexOf t

namespace SelectorBuilderClass

/-- Method `checkOrder` from the source, as the boolean `isValidOrder` it
computes: for every selector at position `index`, no earlier selector has a
type lying strictly after it in `order`.  The method throws exactly when this
is `false`. -/
def checkOrder (b : SelectorBuilderClass) : Bool :=
  b.selectors.enum.all fun si =>
    let indexInOrder := order.indexOf si.2.type
    let earlier := b.selectors.take si.1
    earlier.all fun elem => !((order.drop (indexInOrder + 1)).contains elem.type)

/-- The `this.checkOrder(); return this;` tail shared by the appending
methods: the already mutated state is returned, with the order error exactly
when `checkOrder` fails. -/
def validated (m : SelectorBuilderClass) : SelectorBuilderClass × Option SelectorError :=
  if m.checkOrder then (m, none) else (m, some .badOrder)

/-- Method `element(value)`: duplicate check on the flag, then push the
verbatim value and validate the order. -/
def element (b : SelectorBuilderClass) (value : String) :
    SelectorBuilderClass × Option SelectorError :=
  if b.flagElement then (b, some .duplicatePart)
  else
    validated { b with flagElement := true,
                       selectors := b.selectors ++ [⟨"element", value⟩] }

/-- Method `id(value)`: duplicate check, push `"#" + value`, validate order. -/
def id (b : SelectorBuilderClass) (value : String) :
    SelectorBuilderClass × Option SelectorError :=
  if b.flagId then (b, some .duplicatePart)
  else
    validated { b with flagId := true,
                       selectors := b.selectors ++ [⟨"id", "#" ++ value⟩] }

/-- Method `class(value)`: push `"." + value`, validate order (no flag). -/
def «class» (b : SelectorBuilderClass) (value : String) :
    SelectorBuilderClass × Option SelectorError :=
  validated { b with selectors := b.selectors ++ [⟨"class", "." ++ value⟩] }

/-- Method `attr(value)`: push `"[" + value + "]"`, validate order (no flag). -/
def attr (b : SelectorBuilderClass) (value : String) :
    SelectorBuilderClass × Option SelectorError :=
  validated { b with selectors := b.selectors ++ [⟨"attribute", "[" ++ value ++ "]"⟩] }

/-- Method `pseudoClass(value)`: push `":" + value`, validate order (no flag). -/
def pseudoClass (b : SelectorBuilderClass) (value : String) :
    SelectorBuilderClass × Option SelectorError :=
  validated { b with selectors := b.selectors ++ [⟨"pseudoClass", ":" ++ value⟩] }

/-- Method `pseudoElement(value)`: duplicate check, push `"::" + value`, and —
unlike every other appending method — no call to `checkOrder`. -/
def pseudoElement (b : SelectorBuilderClass) (value : String) :
    SelectorBuilderClass × Option SelectorError :=
  if b.flagPseudoElement then (b, some .duplicatePart)
  else
    ({ b with flagPseudoElement := true,
              selectors := b.selectors ++ [⟨"pseudoElement", "::" ++ value⟩] }, none)

/-- Method `stringify()`: prefer the parts, else the combination fragments (JS
`Array.join` renders a `null` entry as the empty string), else `null`;
then clear both arrays on the instance.  Returns the result together with
the cleared state. -/
def stringify (b : SelectorBuilderClass) : Option String × SelectorBuilderClass :=
  let selector : Option String :=
    if b.selectors.length != 0 then
      some (String.join (b.selectors.map fun item => item.value))
    else if b.combineSelectors.length != 0 then
      some (String.join (b.combineSelectors.map fun s => s.getD ""))
    else none
  (selector, { b with selectors := [], combineSelectors := [] })

/-- Method `combine(selector1, combinator, selector2)`: stringify both operands (which
clears them), push the three fragments.  Returns the updated receiver together
with the post-`stringify` states of the two operands. -/
def combine (b selector1 : SelectorBuilderClass) (combinator : String)
    (selector2 : SelectorBuilderClass) :
    SelectorBuilderClass × SelectorBuilderClass × SelectorBuilderClass :=
  let r1 := selector1.stringify
  let r2 := selector2.stringify
  ({ b with combineSelectors :=
      b.combineSelectors ++ [r1.1, some (" " ++ combinator ++ " "), r2.1] },
   r1.2, r2.2)

end SelectorBuilderClass

/-- The facade `cssSelectorBuilder`: each entry point instantiates a fresh
builder and forwards the call. -/
def cssSelectorBuilder.element (value : String) : SelectorBuilderClass × Option SelectorError :=
  SelectorBuilderClass.element {} value

def cssSelectorBuilder.id (value : String) : SelectorBuilderClass × Option SelectorError :=
  SelectorBuilderClass.id {} value

def cssSelectorBuilder.class (value : String) : SelectorBuilderClass × Option SelectorError :=
  SelectorBuilderClass.«class» {} value

def cssSelectorBuilder.attr (value : String) : SelectorBuilderClass × Option SelectorError :=
  SelectorBuilderClass.attr {} value

def cssSelectorBuilder.pseudoClass (value : String) : SelectorBuilderClass × Option SelectorError :=
  SelectorBuilderClass.pseudoClass {} value

def cssSelectorBuilder.pseudoElement (value : String) : SelectorBuilderClass × Option SelectorError :=
  SelectorBuilderClass.pseudoElement {} value

def cssSelectorBuilder.combine (selector1 : SelectorBuilderClass) (combinator : String)
    (selector2 : SelectorBuilderClass) :
    SelectorBuilderClass × SelectorBuilderClass × SelectorBuilderClass :=
  SelectorBuilderClass.combine {} selector1 combinator selector2

/-- One appending call on a builder, tagged by its category. -/
inductive Call where
  | element (value : String)
  | id (value : String)
  | «class» (value : String)
  | attr (value : String)
  | pseudoClass (value : String)
  | pseudoElement (value : String)
deriving DecidableEq, Repr

/-- Dispatch a call to the corresponding method of the builder. -/
def Call.apply (b : SelectorBuilderClass) : Call → SelectorBuilderClass × Option SelectorError
  | .element v => b.element v
  | .id v => b.id v
  | .«class» v => b.«class» v
  | .attr v => b.attr v
  | .pseudoClass v => b.pseudoClass v
  | .pseudoElement v => b.pseudoElement v

/-- The part that the call pushes onto `this.selectors` on success. -/
def Call.part : Call → SelectorPart
  | .element v => ⟨"element", v⟩
  | .id v => ⟨"id", "#" ++ v⟩
  | .«class» v => ⟨"class", "." ++ v⟩
  | .attr v => ⟨"attribute", "[" ++ v ++ "]"⟩
  | .pseudoClass v => ⟨"pseudoClass", ":" ++ v⟩
  | .pseudoElement v => ⟨"pseudoElement", "::" ++ v⟩

/-- The rendered fragment a call contributes. -/
def Call.fragment (c : Call) : String := c.part.value

/-- The category name of a call. -/
def Call.category (c : Call) : String := c.part.type

/-- The index of the category of a call in the fixed enumeration. -/
def Call.idx (c : Call) : Nat := orderIdx c.category

/-- Run a chain of calls on a builder; a thrown error aborts the chain,
leaving the state as it was at the moment of the throw. -/
def runCallsFrom (b : SelectorBuilderClass) :
    List Call → SelectorBuilderClass × Option SelectorError
  | [] => (b, none)
  | c :: cs =>
    match c.apply b with
    | (b', none) => runCallsFrom b' cs
    | (b', some e) => (b', some e)

/-- Run a chain of calls on a fresh builder. -/
def runCalls (calls : List Call) : SelectorBuilderClass × Option SelectorError :=
  runCallsFrom {} calls

/-- A valid ordering of category calls: a subsequence of
`element, id, class*, attribute*, pseudoClass*, pseudoElement` respecting the
fixed category order, i.e. category indices are non-decreasing and each of the
three singleton categories occurs at most once. -/
def validOrdering (calls : List Call) : Prop :=
  calls.Pairwise (fun a b => a.idx ≤ b.idx) ∧
  calls.countP (fun c => c.category == "element") ≤ 1 ∧
  calls.countP (fun c => c.category == "id") ≤ 1 ∧
  calls.countP (fun c => c.category == "pseudoElement") ≤ 1

instance : DecidablePred validOrdering := fun calls =>
  inferInstanceAs (Decidable (calls.Pairwise (fun a b : Call => a.idx ≤ b.idx) ∧
    calls.countP (fun c => c.category == "element") ≤ 1 ∧
    calls.countP (fun c => c.category == "id") ≤ 1 ∧
    calls.countP (fun c => c.category == "pseudoElement") ≤ 1))

/-- A builder state whose part types all belong to the category enumeration
(every state reachable through the methods satisfies this). -/
def wellFormed (b : SelectorBuilderClass) : Prop :=
  ∀ p ∈ b.selectors, p.type ∈ order

instance : DecidablePred wellFormed := fun b =>
  inferInstanceAs (Decidable (∀ p ∈ b.selectors, p.type ∈ order))

/-- The parts list respects the category order pairwise. -/
def partsOrdered (l : List SelectorPart) : Prop :=
  l.Pairwise fun p q => orderIdx p.type ≤ orderIdx q.type

/-- Some pair of parts (earlier, later), in insertion order, has its category
indices inverted. -/
def hasInvertedPair (l : List SelectorPart) : Prop :=
  ∃ i j, ∃ hi : i < l.length, ∃ hj : j < l.length,
    i < j ∧ orderIdx (l.get ⟨j, hj⟩).type < orderIdx (l.get ⟨i, hi⟩).type

/-- Modelled from the spec: the platform `JSON.stringify` (not part of the
sources of the repository), restricted to flat objects with integer fields —
"standard JSON serialization; object key order in output follows insertion
order". -/
def jsonStringify (fields : List (String × Int)) : String :=
  "\x7b" ++ String.intercalate ","
    (fields.map fun kv => "\x22" ++ kv.1 ++ "\x22:" ++ toString kv.2) ++ "\x7d"

/-- Digit span used by the number grammar of the JSON fragment. -/
def spanDigits : List Char → List Char × List Char
  | [] => ([], [])
  | c :: rest =>
    if c.isDigit then
      let (d, r) := spanDigits rest
      (c :: d, r)
    else ([], c :: rest)

/-- Numeric value of a digit span. -/
def digitsVal (ds : List Char) : Nat :=
  ds.foldl (fun acc c => acc * 10 + (c.toNat - 48)) 0

/-- Parse a (possibly negated) integer literal. -/
def parseNumber : List Char → Option (Int × List Char)
  | '-' :: rest =>
    match spanDigits rest with
    | ([], _) => none
    | (ds, r) => some (-(digitsVal ds : Int), r)
  | cs =>
    match spanDigits cs with
    | ([], _) => none
    | (ds, r) => some ((digitsVal ds : Int), r)

/-- Span of key characters up to the closing quote. -/
def spanNonQuote : List Char → List Char × List Char
  | [] => ([], [])
  | c :: rest =>
    if c = '\x22' then ([], c :: rest)
    else
      let (d, r) := spanNonQuote rest
      (c :: d, r)

/-- Parse a comma-separated list of `"key":int` members (fuelled by the
input length). -/
def parseMembers : Nat → List Char → Option (List (String × Int) × List Char)
  | 0, _ => none
  | fuel + 1, cs =>
    match cs with
    | '\x22' :: rest =>
      let (k, r1) := spanNonQuote rest
      match r1 with
      | '\x22' :: ':' :: r2 =>
        match parseNumber r2 with
        | some (v, r3) =>
          match r3 with
          | ',' :: r4 =>
            match parseMembers fuel r4 with
            | some (ms, r5) => some ((⟨k⟩, v) :: ms, r5)
            | none => none
          | _ => some ([(⟨k⟩, v)], r3)
        | none => none
      | _ => none
    | _ => none

/-- Modelled from the spec: the platform `JSON.parse` (not part of the
sources of the repository), restricted to the flat integer-object fragment that
`jsonStringify` produces. -/
def jsonParse (s : String) : Option (List (String × Int)) :=
  match s.data with
  | '\x7b' :: '\x7d' :: rest => if rest = [] then some [] else none
  | '\x7b' :: rest =>
    match parseMembers rest.length rest with
    | some (ms, '\x7d' :: r) => if r = [] then some ms else none
    | _ => none
  | _ => none

/-- Modelled from the spec: a prototype as a behavioral delegate — named
methods, each computing a value from the own fields of the receiver. -/
def Prototype : Type := List (String × (List (String × Int) → Int))

/-- An object holding its own enumerable fields together with the attached
prototype delegate (`Object.setPrototypeOf` attaches behaviour without
copying the fields). -/
structure JsObject where
  fields : List (String × Int)
  proto : Prototype

/-- Function `getJSON(obj)`: returns `JSON.stringify(obj)`. -/
def getJSON (obj : List (String × Int)) : String := jsonStringify obj

/-- Function `fromJSON(proto, json)`: `JSON.parse` the text, then attach
`proto` as the behavioral delegate of the object; fields are neither copied
nor re-validated. -/
def fromJSON (proto : Prototype) (json : String) : Option JsObject :=
  (jsonParse json).map fun obj => ⟨obj, proto⟩

/-- Method dispatch through the prototype delegate: calling `name` on `o`
runs the method of the prototype against the own fields of the object. -/
def callMethod (o : JsObject) (name : String) : Option Int :=
  (o.proto.lookup name).map fun f => f o.fields

/-- The rectangle-style prototype of the round-trip property: a computed
`getArea` method multiplying the `width` and `height` fields of the receiver. -/
def rectProto : Prototype :=
  [("getArea", fun fs => ((fs.lookup "width").getD 0) * ((fs.lookup "height").getD 0))]

/-- A builder holding a single pseudo-class part: a concrete state used to
instantiate the theorems below. -/
def pseudoClassOnly : SelectorBuilderClass :=
  { selectors := [⟨"pseudoClass", ":focus"⟩] }

/-- A builder already holding an out-of-order pair of parts (such a state is
observable by catching the thrown order error). -/
def invertedState : SelectorBuilderClass :=
  { selectors := [⟨"pseudoClass", ":hover"⟩, ⟨"id", "#m"⟩] }

/-- The nested `combine` worked example from the source documentation,
rendered. -/
def workedExample : Option String :=
  (cssSelectorBuilder.combine
    ((((cssSelectorBuilder.element "div").1.id "main").1.«class» "container").1.«class»
      "draggable").1
    "+"
    (cssSelectorBuilder.combine
      ((cssSelectorBuilder.element "table").1.id "data").1
      "~"
      (cssSelectorBuilder.combine
        ((cssSelectorBuilder.element "tr").1.pseudoClass "nth-of-type(even)").1
        " "
        ((cssSelectorBuilder.element "td").1.pseudoClass "nth-of-type(even)").1).1).1).1.stringify.1

theorem hasInvertedPair_iff_not_partsOrdered (l : List SelectorPart) :
    hasInvertedPair l ↔ ¬ partsOrdered l := by
  rw [partsOrdered, List.pairwise_iff_getElem]
  constructor
  · rintro ⟨i, j, hi, hj, hij, hlt⟩ h
    exact absurd (h i j hi hj hij) (by simpa using hlt)
  · intro h
    by_contra hno
    apply h
    intro i j hi hj hij
    by_contra hcon
    refine hno ⟨i, j, hi, hj, hij, ?_⟩
    simp only [List.get_eq_getElem]
    omega

/-- On categories of the enumeration, the `slice`/`includes` test of
`checkOrder` computes the strict comparison of category indices. -/
theorem contains_drop_eq (t u : String) (ht : t ∈ order) (hu : u ∈ order) :
    (order.drop (order.indexOf t + 1)).contains u
      = decide (order.indexOf t < order.indexOf u) := by
  simp only [order, List.mem_cons, List.not_mem_nil, or_false] at ht hu
  rcases ht with rfl | rfl | rfl | rfl | rfl | rfl <;>
    rcases hu with rfl | rfl | rfl | rfl | rfl | rfl <;> decide

/-- Method `checkOrder` succeeds exactly when the parts respect the category
order pairwise. -/
theorem checkOrder_eq_true_iff (b : SelectorBuilderClass) (hwf : wellFormed b) :
    b.checkOrder = true ↔ partsOrdered b.selectors := by
  rw [SelectorBuilderClass.checkOrder, List.all_eq_true, List.forall_mem_enum]
  rw [partsOrdered, List.pairwise_iff_getElem]
  constructor
  · intro h i j hi hj hij
    have hx := h j hj
    simp only [List.all_eq_true] at hx
    have hmem : b.selectors[i] ∈ b.selectors.take j := by
      rw [List.mem_take_iff_getElem]
      exact ⟨i, by omega, rfl⟩
    have := hx _ hmem
    rw [contains_drop_eq _ _ (hwf _ (List.getElem_mem hj)) (hwf _ (List.getElem_mem hi))]
      at this
    simp only [Bool.not_eq_true', decide_eq_false_iff_not, not_lt] at this
    exact this
  · intro h i hi
    simp only [List.all_eq_true]
    intro e he
    rw [List.mem_take_iff_getElem] at he
    obtain ⟨j, hj, rfl⟩ := he
    have hj' : j < b.selectors.length := by omega
    have hji : j < i := by omega
    have hle := h j i hj' hi hji
    rw [contains_drop_eq _ _ (hwf _ (List.getElem_mem hi)) (hwf _ (List.getElem_mem hj'))]
    simp only [Bool.not_eq_true', decide_eq_false_iff_not, not_lt]
    exact hle

theorem wellFormed_push {b b₂ : SelectorBuilderClass} {p : SelectorPart}
    (h2 : b₂.selectors = b.selectors ++ [p])
    (hwf : wellFormed b) (hp : p.type ∈ order) : wellFormed b₂ := by
  intro q hq
  rw [h2, List.mem_append] at hq
  rcases hq with h1 | h1
  · exact hwf q h1
  · rw [List.mem_singleton] at h1
    subst h1
    exact hp

theorem partsOrdered_take_one {l : List SelectorPart} {p : SelectorPart}
    {r : List SelectorPart} (h : partsOrdered (l ++ p :: r)) :
    partsOrdered (l ++ [p]) :=
  h.sublist (((List.nil_sublist r).cons₂ p).append_left l)

/-- The category of every call is one of the six enumerated names. -/
theorem category_mem_order (c : Call) : c.category ∈ order := by
  cases c <;> simp [Call.category, Call.part, order]

theorem validated_of_checkOrder {m : SelectorBuilderClass} (h : m.checkOrder = true) :
    m.validated = (m, none) := by
  rw [SelectorBuilderClass.validated, if_pos h]

/-- A successful append: when the matching singleton flag is clear and the
parts including the new one are ordered, `Call.apply` pushes the part, keeps
`combineSelectors`, raises nothing, and sets exactly the matching flag. -/
theorem apply_ok (b : SelectorBuilderClass) (c : Call)
    (hwf : wellFormed b)
    (hord : partsOrdered (b.selectors ++ [c.part]))
    (hfe : c.category = "element" → b.flagElement = false)
    (hfi : c.category = "id" → b.flagId = false)
    (hfp : c.category = "pseudoElement" → b.flagPseudoElement = false) :
    (c.apply b).2 = none ∧
    (c.apply b).1.selectors = b.selectors ++ [c.part] ∧
    (c.apply b).1.combineSelectors = b.combineSelectors ∧
    (c.apply b).1.flagElement = (b.flagElement || (c.category == "element")) ∧
    (c.apply b).1.flagId = (b.flagId || (c.category == "id")) ∧
    (c.apply b).1.flagPseudoElement
      = (b.flagPseudoElement || (c.category == "pseudoElement")) := by
  cases c with
  | element v =>
    have hflag : b.flagElement = false := hfe rfl
    have hco : SelectorBuilderClass.checkOrder
        { b with flagElement := true, selectors := b.selectors ++ [⟨"element", v⟩] }
        = true := by
      refine (checkOrder_eq_true_iff _ (wellFormed_push rfl hwf ?_)).2 ?_
      · exact category_mem_order (.element v)
      · simpa [Call.part] using hord
    simp [Call.apply, SelectorBuilderClass.element, hflag, validated_of_checkOrder hco,
      Call.part, Call.category]
  | id v =>
    have hflag : b.flagId = false := hfi rfl
    have hco : SelectorBuilderClass.checkOrder
        { b with flagId := true, selectors := b.selectors ++ [⟨"id", "#" ++ v⟩] }
        = true := by
      refine (checkOrder_eq_true_iff _ (wellFormed_push rfl hwf ?_)).2 ?_
      · exact category_mem_order (.id v)
      · simpa [Call.part] using hord
    simp [Call.apply, SelectorBuilderClass.id, hflag, validated_of_checkOrder hco,
      Call.part, Call.category]
  | «class» v =>
    have hco : SelectorBuilderClass.checkOrder
        { b with selectors := b.selectors ++ [⟨"class", "." ++ v⟩] } = true := by
      refine (checkOrder_eq_true_iff _ (wellFormed_push rfl hwf ?_)).2 ?_
      · exact category_mem_order (.«class» v)
      · simpa [Call.part] using hord
    simp [Call.apply, SelectorBuilderClass.«class», validated_of_checkOrder hco,
      Call.part, Call.category]
  | attr v =>
    have hco : SelectorBuilderClass.checkOrder
        { b with selectors := b.selectors ++ [⟨"attribute", "[" ++ v ++ "]"⟩] } = true := by
      refine (checkOrder_eq_true_iff _ (wellFormed_push rfl hwf ?_)).2 ?_
      · exact category_mem_order (.attr v)
      · simpa [Call.part] using hord
    simp [Call.apply, SelectorBuilderClass.attr, validated_of_checkOrder hco,
      Call.part, Call.category]
  | pseudoClass v =>
    have hco : SelectorBuilderClass.checkOrder
        { b with selectors := b.selectors ++ [⟨"pseudoClass", ":" ++ v⟩] } = true := by
      refine (checkOrder_eq_true_iff _ (wellFormed_push rfl hwf ?_)).2 ?_
      · exact category_mem_order (.pseudoClass v)
      · simpa [Call.part] using hord
    simp [Call.apply, SelectorBuilderClass.pseudoClass, validated_of_checkOrder hco,
      Call.part, Call.category]
  | pseudoElement v =>
    have hflag : b.flagPseudoElement = false := hfp rfl
    simp [Call.apply, SelectorBuilderClass.pseudoElement, hflag, Call.part, Call.category]

/-- Running a chain of calls whose parts extend the current state in
category order, with no singleton category repeated, throws nothing and
appends exactly the rendered parts. -/
theorem runCallsFrom_ok (cs : List Call) : ∀ b : SelectorBuilderClass,
    wellFormed b →
    partsOrdered (b.selectors ++ cs.map Call.part) →
    (cond b.flagElement 1 0) + cs.countP (fun c => c.category == "element") ≤ 1 →
    (cond b.flagId 1 0) + cs.countP (fun c => c.category == "id") ≤ 1 →
    (cond b.flagPseudoElement 1 0) + cs.countP (fun c => c.category == "pseudoElement") ≤ 1 →
    (runCallsFrom b cs).2 = none ∧
    (runCallsFrom b cs).1.selectors = b.selectors ++ cs.map Call.part ∧
    (runCallsFrom b cs).1.combineSelectors = b.combineSelectors := by
  induction cs with
  | nil =>
    intro b _ _ _ _ _
    simp [runCallsFrom]
  | cons c cs ih =>
    intro b hwf hord hel hid hpe
    have hfe : c.category = "element" → b.flagElement = false := by
      intro hc
      rw [List.countP_cons] at hel
      cases hb : b.flagElement
      · rfl
      · exfalso
        rw [hb] at hel
        simp [hc] at hel
    have hfi : c.category = "id" → b.flagId = false := by
      intro hc
      rw [List.countP_cons] at hid
      cases hb : b.flagId
      · rfl
      · exfalso
        rw [hb] at hid
        simp [hc] at hid
    have hfp : c.category = "pseudoElement" → b.flagPseudoElement = false := by
      intro hc
      rw [List.countP_cons] at hpe
      cases hb : b.flagPseudoElement
      · rfl
      · exfalso
        rw [hb] at hpe
        simp [hc] at hpe
    have step := apply_ok b c hwf (partsOrdered_take_one (by simpa using hord)) hfe hfi hfp
    have hsel := step.2.1
    have happ : c.apply b = ((c.apply b).1, none) := by rw [← step.1]
    have hrun : runCallsFrom b (c :: cs) = runCallsFrom (c.apply b).1 cs := by
      simp only [runCallsFrom]
      rw [happ]
    have hwf' : wellFormed (c.apply b).1 :=
      wellFormed_push hsel hwf (category_mem_order c)
    have hord' : partsOrdered ((c.apply b).1.selectors ++ cs.map Call.part) := by
      rw [hsel, List.append_assoc, List.singleton_append]
      simpa using hord
    have hel' : (cond (c.apply b).1.flagElement 1 0)
        + cs.countP (fun c => c.category == "element") ≤ 1 := by
      rw [step.2.2.2.1]
      rw [List.countP_cons] at hel
      cases hb : b.flagElement <;> cases hc : (c.category == "element") <;>
        simp only [hb, hc, Bool.or_true, Bool.or_false, cond_true, cond_false,
          if_true, if_false] at hel ⊢ <;> omega
    have hid' : (cond (c.apply b).1.flagId 1 0)
        + cs.countP (fun c => c.category == "id") ≤ 1 := by
      rw [step.2.2.2.2.1]
      rw [List.countP_cons] at hid
      cases hb : b.flagId <;> cases hc : (c.category == "id") <;>
        simp only [hb, hc, Bool.or_true, Bool.or_false, cond_true, cond_false,
          if_true, if_false] at hid ⊢ <;> omega
    have hpe' : (cond (c.apply b).1.flagPseudoElement 1 0)
        + cs.countP (fun c => c.category == "pseudoElement") ≤ 1 := by
      rw [step.2.2.2.2.2]
      rw [List.countP_cons] at hpe
      cases hb : b.flagPseudoElement <;> cases hc : (c.category == "pseudoElement") <;>
        simp only [hb, hc, Bool.or_true, Bool.or_false, cond_true, cond_false,
          if_true, if_false] at hpe ⊢ <;> omega
    obtain ⟨h1, h2, h3⟩ := ih (c.apply b).1 hwf' hord' hel' hid' hpe'
    refine ⟨?_, ?_, ?_⟩
    · rw [hrun]
      exact h1
    · rw [hrun, h2, hsel, List.append_assoc, List.singleton_append, List.map_cons]
    · rw [hrun, h3, step.2.2.1]

/-- C1 counterexample: the empty call sequence is a valid ordering, yet
`stringify` returns the null result rather than the empty concatenation. -/
theorem C1_empty_sequence_renders_null :
    validOrdering [] ∧
    (runCalls []).1.stringify.1 ≠ some (String.join (([] : List Call).map Call.fragment)) := by
  constructor
  · exact ⟨List.Pairwise.nil, by simp, by simp, by simp⟩
  · decide

/-- C1 (amended to nonempty sequences): every nonempty valid ordering of
category calls runs without error, and `stringify` returns the concatenation
of the rendered fragments in call order, each with its marker. -/
theorem C1_render_valid_orderings (calls : List Call) (h : validOrdering calls)
    (hne : calls ≠ []) :
    (runCalls calls).2 = none ∧
    (runCalls calls).1.stringify.1 = some (String.join (calls.map Call.fragment)) := by
  obtain ⟨hchain, hel, hid, hpe⟩ := h
  have hpair : (calls.map Call.part).Pairwise
      (fun p q => orderIdx p.type ≤ orderIdx q.type) :=
    hchain.map _ (fun a b hab => hab)
  have key := runCallsFrom_ok calls {}
      (by intro p hp; exact absurd hp (List.not_mem_nil p))
      (by simpa [partsOrdered] using hpair)
      (by simpa using hel) (by simpa using hid) (by simpa using hpe)
  obtain ⟨h1, h2, h3⟩ := key
  have h2' : (runCalls calls).1.selectors = calls.map Call.part := by
    rw [runCalls, h2]
    simp
  refine ⟨h1, ?_⟩
  rcases calls with _ | ⟨c, cs⟩
  · exact absurd rfl hne
  · simp only [SelectorBuilderClass.stringify, h2']
    have hfr : ((fun item : SelectorPart => item.value) ∘ Call.part) = Call.fragment := rfl
    simp [List.map_map, hfr, Call.fragment]

/-- C1 witness: a concrete full chain through all six categories. -/
theorem C1_witness :
    (runCalls [Call.element "div", Call.id "main", Call.«class» "c1", Call.«class» "c2",
      Call.attr "a", Call.pseudoClass "p", Call.pseudoElement "before"]).2 = none ∧
    (runCalls [Call.element "div", Call.id "main", Call.«class» "c1", Call.«class» "c2",
      Call.attr "a", Call.pseudoClass "p", Call.pseudoElement "before"]).1.stringify.1
      = some (String.join ([Call.element "div", Call.id "main", Call.«class» "c1",
          Call.«class» "c2", Call.attr "a", Call.pseudoClass "p",
          Call.pseudoElement "before"].map Call.fragment)) :=
  C1_render_valid_orderings _ (by decide) (by decide)

theorem stringify_fst (m : SelectorBuilderClass) :
    m.stringify.1 =
      if m.selectors.length != 0 then
        some (String.join (m.selectors.map fun item => item.value))
      else if m.combineSelectors.length != 0 then
        some (String.join (m.combineSelectors.map fun s => s.getD ""))
      else none := rfl

theorem stringify_snd (m : SelectorBuilderClass) :
    m.stringify.2 = { m with selectors := [], combineSelectors := [] } := rfl

theorem validated_fst (m : SelectorBuilderClass) : m.validated.1 = m := by
  rw [SelectorBuilderClass.validated]
  by_cases h : m.checkOrder <;> simp [h]

theorem validated_snd_ne_dup (m : SelectorBuilderClass) :
    m.validated.2 ≠ some .duplicatePart := by
  rw [SelectorBuilderClass.validated]
  by_cases h : m.checkOrder <;> simp [h]

theorem validated_badOrder_iff (m : SelectorBuilderClass) (hwf : wellFormed m) :
    m.validated.2 = some .badOrder ↔ hasInvertedPair m.validated.1.selectors := by
  rw [hasInvertedPair_iff_not_partsOrdered, validated_fst, SelectorBuilderClass.validated]
  by_cases h : m.checkOrder
  · simp only [h, if_true]
    simp [(checkOrder_eq_true_iff m hwf).1 h]
  · simp only [h, if_false]
    refine ⟨fun _ hord => absurd ((checkOrder_eq_true_iff m hwf).2 hord) (by simp [h]),
      fun _ => rfl⟩

theorem join_triple (a b c : String) : String.join [a, b, c] = a ++ b ++ c := by
  simp [String.join, String.empty_append]

theorem stringify_fst_of_ne_nil {m : SelectorBuilderClass} (h : m.selectors ≠ []) :
    m.stringify.1 = some (String.join (m.selectors.map fun item => item.value)) := by
  rw [stringify_fst, if_pos]
  simpa [List.length_eq_zero] using h

/-- C2: each order-validated appending operation raises the order error
exactly when, after the append, the category index of some earlier part
exceeds that of a later part; for `element` and `id` this is stated below the duplicate
guard (their flag clear). -/
theorem C2_order_error_iff (b : SelectorBuilderClass) (v : String) (hwf : wellFormed b) :
    ((b.«class» v).2 = some .badOrder ↔ hasInvertedPair (b.«class» v).1.selectors) ∧
    ((b.attr v).2 = some .badOrder ↔ hasInvertedPair (b.attr v).1.selectors) ∧
    ((b.pseudoClass v).2 = some .badOrder ↔ hasInvertedPair (b.pseudoClass v).1.selectors) ∧
    (b.flagElement = false →
      ((b.element v).2 = some .badOrder ↔ hasInvertedPair (b.element v).1.selectors)) ∧
    (b.flagId = false →
      ((b.id v).2 = some .badOrder ↔ hasInvertedPair (b.id v).1.selectors)) := by
  refine ⟨?_, ?_, ?_, ?_, ?_⟩
  · rw [SelectorBuilderClass.«class»]
    exact validated_badOrder_iff _ (@wellFormed_push b _ _ rfl hwf (by simp [order]))
  · rw [SelectorBuilderClass.attr]
    exact validated_badOrder_iff _ (@wellFormed_push b _ _ rfl hwf (by simp [order]))
  · rw [SelectorBuilderClass.pseudoClass]
    exact validated_badOrder_iff _ (@wellFormed_push b _ _ rfl hwf (by simp [order]))
  · intro hf
    rw [SelectorBuilderClass.element, if_neg (by simp [hf])]
    exact validated_badOrder_iff _ (@wellFormed_push b _ _ rfl hwf (by simp [order]))
  · intro hf
    rw [SelectorBuilderClass.id, if_neg (by simp [hf])]
    exact validated_badOrder_iff _ (@wellFormed_push b _ _ rfl hwf (by simp [order]))

/-- C2 witness: the single-pseudo-class state instantiates every conjunct. -/
theorem C2_witness :
    wellFormed pseudoClassOnly ∧
    (((pseudoClassOnly.«class» "x").2 = some SelectorError.badOrder ↔
        hasInvertedPair (pseudoClassOnly.«class» "x").1.selectors) ∧
     ((pseudoClassOnly.attr "x").2 = some SelectorError.badOrder ↔
        hasInvertedPair (pseudoClassOnly.attr "x").1.selectors) ∧
     ((pseudoClassOnly.pseudoClass "x").2 = some SelectorError.badOrder ↔
        hasInvertedPair (pseudoClassOnly.pseudoClass "x").1.selectors) ∧
     (pseudoClassOnly.flagElement = false →
       ((pseudoClassOnly.element "x").2 = some SelectorError.badOrder ↔
          hasInvertedPair (pseudoClassOnly.element "x").1.selectors)) ∧
     (pseudoClassOnly.flagId = false →
       ((pseudoClassOnly.id "x").2 = some SelectorError.badOrder ↔
          hasInvertedPair (pseudoClassOnly.id "x").1.selectors))) :=
  ⟨by decide, C2_order_error_iff pseudoClassOnly "x" (by decide)⟩

/-- C3: a second `element`, `id` or `pseudoElement` call raises the duplicate
error whatever the values; `class`, `attr` and `pseudoClass` never raise it. -/
theorem C3_duplicate_errors (b : SelectorBuilderClass) (v w : String) :
    ((b.element v).1.element w).2 = some .duplicatePart ∧
    ((b.id v).1.id w).2 = some .duplicatePart ∧
    ((b.pseudoElement v).1.pseudoElement w).2 = some .duplicatePart ∧
    (b.«class» v).2 ≠ some .duplicatePart ∧
    (b.attr v).2 ≠ some .duplicatePart ∧
    (b.pseudoClass v).2 ≠ some .duplicatePart := by
  refine ⟨?_, ?_, ?_, validated_snd_ne_dup _, validated_snd_ne_dup _, validated_snd_ne_dup _⟩
  · have hfl : (b.element v).1.flagElement = true := by
      rw [SelectorBuilderClass.element]
      by_cases h : b.flagElement <;> simp [h, validated_fst]
    rw [SelectorBuilderClass.element, if_pos hfl]
  · have hfl : (b.id v).1.flagId = true := by
      rw [SelectorBuilderClass.id]
      by_cases h : b.flagId <;> simp [h, validated_fst]
    rw [SelectorBuilderClass.id, if_pos hfl]
  · have hfl : (b.pseudoElement v).1.flagPseudoElement = true := by
      rw [SelectorBuilderClass.pseudoElement]
      by_cases h : b.flagPseudoElement <;> simp [h]
    rw [SelectorBuilderClass.pseudoElement, if_pos hfl]

/-- C4: `combine` stores `[leftText, SP + c + SP, rightText]` (SP a space) for any
combinator string, rendering concatenates them, and the nested worked example
renders to the documented selector text. -/
theorem C4_combine (left right : SelectorBuilderClass) (c lt rt : String)
    (hl : left.stringify.1 = some lt) (hr : right.stringify.1 = some rt) :
    (cssSelectorBuilder.combine left c right).1.combineSelectors
      = [some lt, some (" " ++ c ++ " "), some rt] ∧
    (cssSelectorBuilder.combine left c right).1.stringify.1
      = some (lt ++ " " ++ c ++ " " ++ rt) ∧
    workedExample
      = some "div#main.container.draggable + table#data ~ tr:nth-of-type(even)   td:nth-of-type(even)" := by
  refine ⟨?_, ?_, by decide⟩
  · simp [cssSelectorBuilder.combine, SelectorBuilderClass.combine, hl, hr]
  · simp [cssSelectorBuilder.combine, SelectorBuilderClass.combine, hl, hr, stringify_fst,
      join_triple, String.append_assoc]

/-- C4 witness: combining `element(div).id(main)` and `element(table).id(data)`
with the `+` combinator. -/
theorem C4_witness :
    (((cssSelectorBuilder.element "div").1.id "main").1.stringify.1 = some "div#main") ∧
    (((cssSelectorBuilder.element "table").1.id "data").1.stringify.1 = some "table#data") ∧
    ((cssSelectorBuilder.combine ((cssSelectorBuilder.element "div").1.id "main").1 "+"
        ((cssSelectorBuilder.element "table").1.id "data").1).1.combineSelectors
      = [some "div#main", some (" " ++ "+" ++ " "), some "table#data"] ∧
     (cssSelectorBuilder.combine ((cssSelectorBuilder.element "div").1.id "main").1 "+"
        ((cssSelectorBuilder.element "table").1.id "data").1).1.stringify.1
      = some ("div#main" ++ " " ++ "+" ++ " " ++ "table#data") ∧
     workedExample
      = some "div#main.container.draggable + table#data ~ tr:nth-of-type(even)   td:nth-of-type(even)") :=
  ⟨by decide, by decide,
    C4_combine _ _ "+" "div#main" "table#data" (by decide) (by decide)⟩

/-- C5: when no pseudo-element was added yet, `pseudoElement` never raises —
it is the one appending operation without order validation. -/
theorem C5_pseudoElement_no_order_check (b : SelectorBuilderClass) (v : String)
    (h : b.flagPseudoElement = false) :
    (b.pseudoElement v).2 = none := by
  simp [SelectorBuilderClass.pseudoElement, h]

/-- C5 witness: even on a state already containing an out-of-order pair,
`pseudoElement` raises nothing. -/
theorem C5_witness :
    invertedState.flagPseudoElement = false ∧
    (invertedState.pseudoElement "after").2 = none :=
  ⟨rfl, C5_pseudoElement_no_order_check invertedState "after" rfl⟩

/-- C6: when an appending call raises the order error, the offending part is
already in the parts sequence, and a subsequent render includes it. -/
theorem C6_validate_after_insert (b : SelectorBuilderClass) (c : Call)
    (h : (c.apply b).2 = some .badOrder) :
    (c.apply b).1.selectors = b.selectors ++ [c.part] ∧
    (c.apply b).1.stringify.1
      = some (String.join ((b.selectors ++ [c.part]).map fun item => item.value)) := by
  have hsel : (c.apply b).1.selectors = b.selectors ++ [c.part] := by
    cases c with
    | element v =>
      by_cases hf : b.flagElement
      · simp [Call.apply, SelectorBuilderClass.element, hf] at h
      · simp [Call.apply, SelectorBuilderClass.element, hf, validated_fst, Call.part]
    | id v =>
      by_cases hf : b.flagId
      · simp [Call.apply, SelectorBuilderClass.id, hf] at h
      · simp [Call.apply, SelectorBuilderClass.id, hf, validated_fst, Call.part]
    | «class» v =>
      simp [Call.apply, SelectorBuilderClass.«class», validated_fst, Call.part]
    | attr v =>
      simp [Call.apply, SelectorBuilderClass.attr, validated_fst, Call.part]
    | pseudoClass v =>
      simp [Call.apply, SelectorBuilderClass.pseudoClass, validated_fst, Call.part]
    | pseudoElement v =>
      exfalso
      by_cases hf : b.flagPseudoElement <;>
        simp [Call.apply, SelectorBuilderClass.pseudoElement, hf] at h
  refine ⟨hsel, ?_⟩
  rw [stringify_fst, hsel]
  simp

/-- C6 witness: `id` after a pseudo-class raises the order error, yet the
`#`-part is appended and rendered. -/
theorem C6_witness :
    ((Call.id "m").apply pseudoClassOnly).2 = some SelectorError.badOrder ∧
    ((Call.id "m").apply pseudoClassOnly).1.selectors
      = pseudoClassOnly.selectors ++ [(Call.id "m").part] ∧
    ((Call.id "m").apply pseudoClassOnly).1.stringify.1
      = some (String.join ((pseudoClassOnly.selectors ++ [(Call.id "m").part]).map
          fun item => item.value)) := by
  have h := C6_validate_after_insert pseudoClassOnly (Call.id "m") (by decide)
  exact ⟨by decide, h.1, h.2⟩

/-- C7: `stringify` prefers the parts sequence, falls back to the combination
sequence, and yields the null result when both are empty. -/
theorem C7_stringify_preference (b : SelectorBuilderClass) :
    b.stringify.1 =
      if b.selectors ≠ [] then
        some (String.join (b.selectors.map fun item => item.value))
      else if b.combineSelectors ≠ [] then
        some (String.join (b.combineSelectors.map fun s => s.getD ""))
      else none := by
  rw [stringify_fst]
  by_cases h1 : b.selectors = [] <;> by_cases h2 : b.combineSelectors = [] <;>
    simp [h1, h2]

/-- C8: `stringify` clears both sequences but keeps the singleton flags, so a
second render is null and a singleton used before the render still raises the
duplicate error afterwards. -/
theorem C8_stringify_resets (b : SelectorBuilderClass) (v : String) :
    b.stringify.2.selectors = [] ∧
    b.stringify.2.combineSelectors = [] ∧
    b.stringify.2.flagElement = b.flagElement ∧
    b.stringify.2.flagId = b.flagId ∧
    b.stringify.2.flagPseudoElement = b.flagPseudoElement ∧
    b.stringify.2.stringify.1 = none ∧
    ((b.stringify.2.element v).2 = some .duplicatePart ↔ b.flagElement = true) ∧
    ((b.stringify.2.id v).2 = some .duplicatePart ↔ b.flagId = true) ∧
    ((b.stringify.2.pseudoElement v).2 = some .duplicatePart ↔ b.flagPseudoElement = true) := by
  refine ⟨rfl, rfl, rfl, rfl, rfl, rfl, ?_, ?_, ?_⟩
  · rw [stringify_snd]
    by_cases h : b.flagElement
    · simp [SelectorBuilderClass.element, h]
    · simp only [SelectorBuilderClass.element, h, Bool.false_eq_true, if_false, iff_false]
      exact validated_snd_ne_dup _
  · rw [stringify_snd]
    by_cases h : b.flagId
    · simp [SelectorBuilderClass.id, h]
    · simp only [SelectorBuilderClass.id, h, Bool.false_eq_true, if_false, iff_false]
      exact validated_snd_ne_dup _
  · rw [stringify_snd]
    by_cases h : b.flagPseudoElement <;> simp [SelectorBuilderClass.pseudoElement, h]

/-- C9: serializing `{width:10, height:20}`, then parsing under the rectangle
prototype, round-trips the own fields and leaves the computed
method callable on the result. -/
theorem C9_json_roundtrip :
    getJSON [("width", 10), ("height", 20)] = "\x7b\x22width\x22:10,\x22height\x22:20\x7d" ∧
    (fromJSON rectProto (getJSON [("width", 10), ("height", 20)])).map JsObject.fields
      = some [("width", 10), ("height", 20)] ∧
    ((fromJSON rectProto (getJSON [("width", 10), ("height", 20)])).map
        fun o => callMethod o "getArea") = some (some 200) := by
  refine ⟨by decide, by decide, by decide⟩

/-- C10: `combine` consumes its operands — their sequences are cleared by the
renders it performs, and a subsequent `stringify` on either is null. -/
theorem C10_combine_consumes_operands (left right : SelectorBuilderClass) (c : String) :
    (cssSelectorBuilder.combine left c right).2.1.selectors = [] ∧
    (cssSelectorBuilder.combine left c right).2.1.combineSelectors = [] ∧
    (cssSelectorBuilder.combine left c right).2.2.selectors = [] ∧
    (cssSelectorBuilder.combine left c right).2.2.combineSelectors = [] ∧
    (cssSelectorBuilder.combine left c right).2.1.stringify.1 = none ∧
    (cssSelectorBuilder.combine left c right).2.2.stringify.1 = none :=
  ⟨rfl, rfl, rfl, rfl, rfl, rfl⟩

example :
    (((cssSelectorBuilder.id "main").1.«class» "container").1.«class» "editable").1.stringify.1
      = some "#main.container.editable" := by decide

example :
    (((cssSelectorBuilder.element "a").1.attr "href").1.pseudoClass "focus").1.stringify.1
      = some "a[href]:focus" := by decide

example : ((cssSelectorBuilder.class "x").1.id "m").2 = some .badOrder := by decide

end CoreJs101
